import Mathlib

/-!
Verification of the vault-web repository: a browser front end (`src/index.js`)
binding two operations, `encrypt_wrapper` and `decrypt_wrapper`, of a
password-based authenticated-encryption engine.  The engine itself (key
derivation, AEAD, envelope codec, secure-buffer discipline) ships as a
compiled WASM artifact and is not present as source; it is modelled here
from the specification, with the cryptographic primitives idealised as
injective functions so that exactly the properties the spec attributes to
them (determinism, collision-freeness, tag authority) hold.  The JS click
handlers are embedded directly from `src/index.js`.
-/

namespace Vault

/-- A byte sequence: a list of naturals, each intended to be `< 256`. -/
abbrev Bytes := List Nat

/-- Every element of the byte sequence is an actual byte value. -/
def ValidBytes (bs : Bytes) : Prop := ∀ b ∈ bs, b < 256

instance (bs : Bytes) : Decidable (ValidBytes bs) := by
  unfold ValidBytes; infer_instance

/-- Injective numeric code of a byte sequence: base-257 digits shifted by one,
so that distinct valid byte lists (including lists of different lengths) get
distinct codes. -/
def bytesCode : Bytes → Nat
  | [] => 0
  | b :: bs => b + 1 + 257 * bytesCode bs

/-- The Argon2id cost parameters carried in the envelope. -/
structure KdfParams where
  memory_kib : Nat
  iterations : Nat
  parallelism : Nat
  deriving DecidableEq, Repr

/-- Modelled from the spec: the single hardcoded high-security parameter set
(256 MiB memory, 4 iterations, 8 lanes) used by the Key Derivation Unit. -/
def FIXED_PARAMS : KdfParams := ⟨262144, 4, 8⟩

/-- Modelled from the spec: the Key Derivation Unit.  `derive` is the
deterministic function of (password, salt, cost parameters) producing the
symmetric key; the memory-hard Argon2id computation is idealised as an
injective pairing, preserving exactly the properties the spec states:
determinism, and distinct keys for distinct (password, salt, params). -/
def derive (password salt : Bytes) (params : KdfParams) : Nat :=
  Nat.pair (Nat.pair (bytesCode password) (bytesCode salt))
    (Nat.pair params.memory_kib (Nat.pair params.iterations params.parallelism))

/-- Modelled from the spec: the per-position keystream byte of the AEAD
cipher, a deterministic function of key, nonce and byte index. -/
def padByte (key : Nat) (nonce : Bytes) (i : Nat) : Nat :=
  Nat.pair key (Nat.pair (bytesCode nonce) i) % 256

/-- Modelled from the spec: AEAD `seal`, the byte-wise encryption half.
Byte `i` of the ciphertext is plaintext byte `i` shifted by the keystream
byte, mod 256. -/
def sealFrom (key : Nat) (nonce : Bytes) (i : Nat) : Bytes → Bytes
  | [] => []
  | b :: bs => (b + padByte key nonce i) % 256 :: sealFrom key nonce (i + 1) bs

/-- Modelled from the spec: the byte-wise decryption half of the AEAD cipher,
inverse of `sealFrom` on valid bytes. -/
def openFrom (key : Nat) (nonce : Bytes) (i : Nat) : Bytes → Bytes
  | [] => []
  | c :: cs => (c + 256 - padByte key nonce i) % 256 :: openFrom key nonce (i + 1) cs

/-- Modelled from the spec: the AEAD authentication tag over (key, nonce,
ciphertext), idealised as an injective pairing — the tag verifies exactly
when key, nonce and ciphertext all match the sealing call. -/
def mkTag (key : Nat) (nonce ct : Bytes) : Nat :=
  Nat.pair key (Nat.pair (bytesCode nonce) (bytesCode ct))

/-- The error taxonomy of the engine, from the spec's §7. -/
inductive VaultError where
  | EntropyUnavailable
  | DerivationResourceExhausted
  | AuthenticationFailed
  | MalformedEnvelope
  | UnsupportedVersion
  | InvalidEncoding
  | SerializationError
  deriving DecidableEq, Repr

/-- The envelope: the durable record `{version, kdf_params, salt, nonce,
ciphertext, tag}` produced by encryption and consumed by decryption.  The
JSON text codec is abstracted to this structural record (the spec leaves
exact field names as an implementation choice); the tag is carried as its
numeric code. -/
structure Envelope where
  version : Nat
  params : KdfParams
  salt : Bytes
  nonce : Bytes
  ct : Bytes
  tag : Nat
  deriving DecidableEq, Repr

/-- The fresh randomness drawn for one encryption: a salt and a nonce from
the Platform Randomness Source. -/
structure Entropy where
  salt : Bytes
  nonce : Bytes
  deriving DecidableEq, Repr

/-- The entropy draw is well-formed: real byte values, 16-byte salt,
12-byte nonce. -/
def ValidEntropy (r : Entropy) : Prop :=
  ValidBytes r.salt ∧ ValidBytes r.nonce ∧
    r.salt.length = 16 ∧ r.nonce.length = 12

instance (r : Entropy) : Decidable (ValidEntropy r) := by
  unfold ValidEntropy; infer_instance

/-- Modelled from the spec: the Engine Facade's `encrypt`.  Draws the fresh
salt and nonce supplied by the randomness source `r`, derives a key with the
hardcoded parameters, seals the plaintext, and builds the version-1
envelope. -/
def encrypt (pt pw : Bytes) (r : Entropy) : Envelope :=
  let key := derive pw r.salt FIXED_PARAMS
  let ct := sealFrom key r.nonce 0 pt
  { version := 1, params := FIXED_PARAMS, salt := r.salt, nonce := r.nonce,
    ct := ct, tag := mkTag key r.nonce ct }

/-- Modelled from the spec: the Engine Facade's `decrypt`, instrumented with
a count of Key Derivation Unit invocations.  Structural validation (the
version check) happens first; only then is the key derived from the supplied
password and the envelope's stored salt and parameters, and the tag
verified before any plaintext is produced. -/
def decryptCounted (e : Envelope) (pw : Bytes) :
    Except VaultError Bytes × Nat :=
  if e.version ≠ 1 then (.error .UnsupportedVersion, 0)
  else
    let key := derive pw e.salt e.params
    (if e.tag = mkTag key e.nonce e.ct then
      .ok (openFrom key e.nonce 0 e.ct)
    else .error .AuthenticationFailed, 1)

/-- Modelled from the spec: `decrypt(envelope, password)`. -/
def decrypt (e : Envelope) (pw : Bytes) : Except VaultError Bytes :=
  (decryptCounted e pw).1

/-! ## Tampering model: single-bit corruption of envelope fields -/

/-- Which field of the envelope a single-bit corruption hits. -/
inductive TamperTarget where
  | ctBit
  | tagBit
  | nonceBit
  | saltBit
  deriving DecidableEq, Repr

/-- Flip bit `j` of byte `i` of a byte sequence. -/
def flipBit (bs : Bytes) (i j : Nat) : Bytes :=
  bs.set i ((bs.getD i 0) ^^^ (1 <<< j))

/-- The envelope with one bit flipped in the chosen field. -/
def tamper (e : Envelope) (t : TamperTarget) (i j : Nat) : Envelope :=
  match t with
  | .ctBit => { e with ct := flipBit e.ct i j }
  | .tagBit => { e with tag := e.tag ^^^ (1 <<< j) }
  | .nonceBit => { e with nonce := flipBit e.nonce i j }
  | .saltBit => { e with salt := flipBit e.salt i j }

/-- The flipped bit actually lies within the chosen field. -/
def TamperOK (e : Envelope) (t : TamperTarget) (i j : Nat) : Prop :=
  match t with
  | .ctBit => i < e.ct.length ∧ j < 8
  | .tagBit => True
  | .nonceBit => i < e.nonce.length ∧ j < 8
  | .saltBit => i < e.salt.length ∧ j < 8

instance (e : Envelope) (t : TamperTarget) (i j : Nat) :
    Decidable (TamperOK e t i j) := by
  unfold TamperOK; cases t <;> infer_instance

/-! ## Secure-buffer lifecycle model -/

/-- Modelled from the spec: a Secure Buffer, a byte container whose release
overwrites every byte with zero. -/
structure SecureBuf where
  data : Bytes
  released : Bool
  deriving DecidableEq, Repr

/-- Releasing a Secure Buffer zeroizes its contents. -/
def SecureBuf.release (b : SecureBuf) : SecureBuf :=
  { data := b.data.map (fun _ => 0), released := true }

/-- The buffer has been released and holds only zero bytes. -/
def Zeroized (b : SecureBuf) : Prop :=
  b.released = true ∧ ∀ x ∈ b.data, x = 0

/-- Modelled from the spec: `encrypt` with the Secure Buffer lifecycle made
explicit.  `ent = none` models the `EntropyUnavailable` error path,
`kdfOk = false` the `DerivationResourceExhausted` path.  The result carries
the final states of the password buffer and the derived-key buffer on
exit. -/
def encryptSB (pt pw : Bytes) (ent : Option Entropy) (kdfOk : Bool) :
    Except VaultError Envelope × SecureBuf × SecureBuf :=
  let pwBuf : SecureBuf := { data := pw, released := false }
  match ent with
  | none =>
    (.error .EntropyUnavailable, pwBuf.release,
      SecureBuf.release { data := [], released := false })
  | some r =>
    if kdfOk then
      let key := derive pw r.salt FIXED_PARAMS
      let keyBuf : SecureBuf := { data := [key], released := false }
      (.ok (encrypt pt pw r), pwBuf.release, keyBuf.release)
    else
      (.error .DerivationResourceExhausted, pwBuf.release,
        SecureBuf.release { data := [], released := false })

/-- Modelled from the spec: `decrypt` with the Secure Buffer lifecycle made
explicit.  On the `UnsupportedVersion` path no key buffer is ever
allocated; on the `DerivationResourceExhausted` and `AuthenticationFailed`
paths the buffers are released exactly as on success. -/
def decryptSB (e : Envelope) (pw : Bytes) (kdfOk : Bool) :
    Except VaultError Bytes × SecureBuf × SecureBuf :=
  let pwBuf : SecureBuf := { data := pw, released := false }
  if e.version ≠ 1 then
    (.error .UnsupportedVersion, pwBuf.release,
      SecureBuf.release { data := [], released := false })
  else if kdfOk then
    let key := derive pw e.salt e.params
    let keyBuf : SecureBuf := { data := [key], released := false }
    if e.tag = mkTag key e.nonce e.ct then
      (.ok (openFrom key e.nonce 0 e.ct), pwBuf.release, keyBuf.release)
    else
      (.error .AuthenticationFailed, pwBuf.release, keyBuf.release)
  else
    (.error .DerivationResourceExhausted, pwBuf.release,
      SecureBuf.release { data := [], released := false })

/-! ## Host binding layer: the click handlers of `src/index.js`

The DOM elements the handlers touch are modelled as a `PageState`; the two
WASM exports `encrypt_wrapper` and `decrypt_wrapper`, and `TextDecoder`'s
`decode`, are external collaborators passed in as functions (a thrown
exception is an `Except.error` carrying its rendered string).  Each handler
additionally reports how many times it invoked its wrapper. -/

/-- The UTF-8 byte sequence of a string, as naturals (the byte content of
`String.toUTF8`, written over `List` so it evaluates by `decide`). -/
def utf8Bytes (s : String) : Bytes :=
  (s.data.flatMap String.utf8EncodeChar).map (fun b => b.toNat)

/-- The DOM state visible to the handlers: the two input fields' `.value`
and the output element's `.textContent` and `.className`. -/
structure PageState where
  passwordValue : String
  dataValue : String
  outputText : String
  outputClass : String
  deriving DecidableEq, Repr

/-- The encrypt-button click handler (src/index.js lines 14-35): on empty
password or data it sets an error message and returns; otherwise it calls
`encrypt_wrapper` on the UTF-8 bytes of the data, showing either the payload
or the caught error.  The second component counts wrapper invocations. -/
def encryptClick (w : Bytes → String → Except String String)
    (st : PageState) : PageState × Nat :=
  if st.passwordValue = "" ∨ st.dataValue = "" then
    ({ st with outputText := "Please provide a password and data to encrypt.",
               outputClass := "error" }, 0)
  else
    match w (utf8Bytes st.dataValue) st.passwordValue with
    | .ok payload => ({ st with outputText := payload, outputClass := "" }, 1)
    | .error e =>
      ({ st with outputText := "Encryption failed: " ++ e,
                 outputClass := "error" }, 1)

/-- The decrypt-button click handler (src/index.js lines 38-60): on empty
password or payload it sets an error message and returns; otherwise it calls
`decrypt_wrapper`, decodes the resulting bytes, and shows either the
plaintext or the caught error.  The second component counts wrapper
invocations. -/
def decryptClick (w : String → String → Except String Bytes)
    (dec : Bytes → String) (st : PageState) : PageState × Nat :=
  if st.passwordValue = "" ∨ st.dataValue = "" then
    ({ st with outputText := "Please provide a password and the encrypted JSON payload.",
               outputClass := "error" }, 0)
  else
    match w st.dataValue st.passwordValue with
    | .ok bs => ({ st with outputText := dec bs, outputClass := "" }, 1)
    | .error e =>
      ({ st with outputText := "Decryption failed: " ++ e,
                 outputClass := "error" }, 1)

/-! ## Concrete inputs used by the witnesses -/

def helloVaultStr : String := "hello vault"

def goodPwStr : String := "correct horse battery staple"

def wrongPwStr : String := "wrong"

def helloVault : Bytes := utf8Bytes helloVaultStr

def goodPw : Bytes := utf8Bytes goodPwStr

def wrongPw : Bytes := utf8Bytes wrongPwStr

def samplePt : Bytes := [104, 101, 121]

def samplePw : Bytes := [115, 101, 99]

def otherPw : Bytes := [110, 111]

def sampleEnt : Entropy :=
  ⟨[0, 1, 2, 3, 4, 5, 6, 7, 8, 9, 10, 11, 12, 13, 14, 15],
   [20, 21, 22, 23, 24, 25, 26, 27, 28, 29, 30, 31]⟩

def sampleEnt2 : Entropy :=
  ⟨[40, 1, 2, 3, 4, 5, 6, 7, 8, 9, 10, 11, 12, 13, 14, 15],
   [41, 21, 22, 23, 24, 25, 26, 27, 28, 29, 30, 31]⟩

def badEnv : Envelope := ⟨2, FIXED_PARAMS, [], [], [], 0⟩

def emptyStr : String := ""

def xStr : String := "x"

def yStr : String := "y"

def boomStr : String := "boom"

def stEmpty : PageState := ⟨emptyStr, xStr, emptyStr, emptyStr⟩

def stFull : PageState := ⟨xStr, yStr, emptyStr, emptyStr⟩

def okEncW : Bytes → String → Except String String := fun _ _ => Except.ok emptyStr

def okDecW : String → String → Except String Bytes := fun _ _ => Except.ok []

def errEncW : Bytes → String → Except String String := fun _ _ => Except.error boomStr

def errDecW : String → String → Except String Bytes := fun _ _ => Except.error boomStr

def constDec : Bytes → String := fun _ => emptyStr

/-! ## Basic lemmas about the model -/

theorem bytesCode_injOn :
    ∀ {xs ys : Bytes}, ValidBytes xs → ValidBytes ys →
      bytesCode xs = bytesCode ys → xs = ys := by
  intro xs
  induction xs with
  | nil =>
    intro ys _ hy h
    cases ys with
    | nil => rfl
    | cons y ys => simp only [bytesCode] at h; omega
  | cons x xs ih =>
    intro ys hx hy h
    cases ys with
    | nil => simp [bytesCode] at h
    | cons y ys =>
      have hxb : x < 256 := hx x (List.mem_cons_self x xs)
      have hyb : y < 256 := hy y (List.mem_cons_self y ys)
      simp only [bytesCode] at h
      have hxy : x = y ∧ bytesCode xs = bytesCode ys := by omega
      have htail : xs = ys :=
        ih (fun b hb => hx b (List.mem_cons_of_mem _ hb))
           (fun b hb => hy b (List.mem_cons_of_mem _ hb)) hxy.2
      rw [hxy.1, htail]

theorem derive_password_inj {p1 p2 salt : Bytes} {params : KdfParams}
    (h1 : ValidBytes p1) (h2 : ValidBytes p2)
    (h : derive p1 salt params = derive p2 salt params) : p1 = p2 := by
  unfold derive at h
  have h' := (Nat.pair_eq_pair.mp h).1
  have h'' := (Nat.pair_eq_pair.mp h').1
  exact bytesCode_injOn h1 h2 h''

theorem derive_salt_inj {pw s1 s2 : Bytes} {params : KdfParams}
    (h1 : ValidBytes s1) (h2 : ValidBytes s2)
    (h : derive pw s1 params = derive pw s2 params) : s1 = s2 := by
  unfold derive at h
  have h' := (Nat.pair_eq_pair.mp h).1
  have h'' := (Nat.pair_eq_pair.mp h').2
  exact bytesCode_injOn h1 h2 h''

theorem padByte_lt (key : Nat) (nonce : Bytes) (i : Nat) :
    padByte key nonce i < 256 :=
  Nat.mod_lt _ (by decide)

theorem openFrom_sealFrom (key : Nat) (nonce : Bytes) :
    ∀ (i : Nat) (pt : Bytes), ValidBytes pt →
      openFrom key nonce i (sealFrom key nonce i pt) = pt := by
  intro i pt
  induction pt generalizing i with
  | nil => intro _; rfl
  | cons b bs ih =>
    intro hv
    have hb : b < 256 := hv b (List.mem_cons_self b bs)
    have hp : padByte key nonce i < 256 := padByte_lt key nonce i
    simp only [sealFrom, openFrom, List.cons.injEq]
    exact ⟨by omega, ih (i + 1) (fun x hx => hv x (List.mem_cons_of_mem _ hx))⟩

theorem sealFrom_valid (key : Nat) (nonce : Bytes) :
    ∀ (i : Nat) (pt : Bytes), ValidBytes (sealFrom key nonce i pt) := by
  intro i pt
  induction pt generalizing i with
  | nil => intro b hb; simp [sealFrom] at hb
  | cons x xs ih =>
    intro b hb
    simp only [sealFrom, List.mem_cons] at hb
    rcases hb with h | h
    · rw [h]; exact Nat.mod_lt _ (by decide)
    · exact ih (i + 1) b h

theorem sealFrom_length (key : Nat) (nonce : Bytes) :
    ∀ (i : Nat) (pt : Bytes), (sealFrom key nonce i pt).length = pt.length := by
  intro i pt
  induction pt generalizing i with
  | nil => rfl
  | cons x xs ih => simp [sealFrom, ih]

theorem mkTag_inj {k1 k2 : Nat} {n1 n2 c1 c2 : Bytes}
    (hn1 : ValidBytes n1) (hn2 : ValidBytes n2)
    (hc1 : ValidBytes c1) (hc2 : ValidBytes c2)
    (h : mkTag k1 n1 c1 = mkTag k2 n2 c2) : k1 = k2 ∧ n1 = n2 ∧ c1 = c2 := by
  unfold mkTag at h
  have h1 := (Nat.pair_eq_pair.mp h).1
  have h2 := Nat.pair_eq_pair.mp (Nat.pair_eq_pair.mp h).2
  exact ⟨h1, bytesCode_injOn hn1 hn2 h2.1, bytesCode_injOn hc1 hc2 h2.2⟩

theorem xor_flip_ne (b j : Nat) : b ^^^ (1 <<< j) ≠ b := by
  intro h
  have h2 : b ^^^ (b ^^^ (1 <<< j)) = b ^^^ b := congrArg (b ^^^ ·) h
  rw [← Nat.xor_assoc, Nat.xor_self, Nat.zero_xor] at h2
  rw [Nat.one_shiftLeft] at h2
  exact absurd h2 (Nat.pos_iff_ne_zero.mp (Nat.pos_pow_of_pos j (by decide)))

theorem flipBit_ne (bs : Bytes) (i j : Nat) (h : i < bs.length) :
    flipBit bs i j ≠ bs := by
  intro heq
  have hget : (flipBit bs i j)[i]? = some ((bs.getD i 0) ^^^ (1 <<< j)) :=
    List.getElem?_set_self h
  have hgetD : bs.getD i 0 = bs[i] := by
    rw [List.getD_eq_getElem?_getD, List.getElem?_eq_getElem h]; rfl
  rw [heq, List.getElem?_eq_getElem h, hgetD] at hget
  exact xor_flip_ne bs[i] j (Option.some.inj hget).symm

theorem flipBit_valid (bs : Bytes) (i j : Nat)
    (hv : ValidBytes bs) (hj : j < 8) : ValidBytes (flipBit bs i j) := by
  intro b hb
  rcases List.mem_or_eq_of_mem_set hb with h | h
  · exact hv b h
  · rw [h]
    have h1 : bs.getD i 0 < 2 ^ 8 := by
      rcases Nat.lt_or_ge i bs.length with hi | hi
      · have : bs.getD i 0 = bs[i] := by
          rw [List.getD_eq_getElem?_getD, List.getElem?_eq_getElem hi]; rfl
        rw [this]; exact hv _ (List.getElem_mem hi)
      · have : bs.getD i 0 = 0 := by
          rw [List.getD_eq_getElem?_getD, List.getElem?_eq_none hi]; rfl
        rw [this]; decide
    have h2 : 1 <<< j < 2 ^ 8 := by
      rw [Nat.one_shiftLeft]
      exact Nat.pow_lt_pow_right (by decide) hj
    exact Nat.xor_lt_two_pow h1 h2

theorem zeroized_release (b : SecureBuf) : Zeroized b.release := by
  refine ⟨rfl, ?_⟩
  intro x hx
  simp only [SecureBuf.release, List.mem_map] at hx
  obtain ⟨a, -, h⟩ := hx
  exact h.symm

/-- The instrumented decrypt agrees with the engine's `decrypt` when key
derivation succeeds. -/
theorem decryptSB_agrees (e : Envelope) (pw : Bytes) :
    (decryptSB e pw true).1 = decrypt e pw := by
  unfold decryptSB decrypt decryptCounted
  split
  · rfl
  · simp only [if_true]
    split <;> rfl

theorem utf8Bytes_valid (s : String) : ValidBytes (utf8Bytes s) := by
  intro b hb
  simp only [utf8Bytes, List.mem_map] at hb
  obtain ⟨u, -, h⟩ := hb
  rw [← h]
  exact u.toNat_lt_size

/-! ## Engine facade lemmas -/

theorem decrypt_encrypt_eq (pt pw : Bytes) (r : Entropy) (hpt : ValidBytes pt) :
    decrypt (encrypt pt pw r) pw = .ok pt := by
  simp [decrypt, decryptCounted, encrypt, openFrom_sealFrom _ _ _ _ hpt]

theorem decrypt_wrong_pw (pt p1 p2 : Bytes) (r : Entropy)
    (h1 : ValidBytes p1) (h2 : ValidBytes p2) (hne : p1 ≠ p2) :
    decrypt (encrypt pt p1 r) p2 = .error .AuthenticationFailed := by
  have hkey : derive p1 r.salt FIXED_PARAMS ≠ derive p2 r.salt FIXED_PARAMS := by
    intro h
    exact hne (derive_password_inj h1 h2 h)
  simp only [decrypt, decryptCounted, encrypt]
  rw [if_neg (by decide)]
  rw [if_neg]
  intro h
  exact hkey (Nat.pair_eq_pair.mp h).1

theorem tamper_rejected_aux (pt pw : Bytes) (r : Entropy) (t : TamperTarget)
    (i j : Nat) (hr : ValidEntropy r)
    (hok : TamperOK (encrypt pt pw r) t i j) :
    decrypt (tamper (encrypt pt pw r) t i j) pw = .error .AuthenticationFailed := by
  obtain ⟨hsv, hnv, -, -⟩ := hr
  have hctv : ValidBytes (sealFrom (derive pw r.salt FIXED_PARAMS) r.nonce 0 pt) :=
    sealFrom_valid _ _ _ _
  cases t with
  | tagBit =>
    simp only [decrypt, decryptCounted, tamper, encrypt]
    rw [if_neg (by decide), if_neg]
    exact xor_flip_ne _ j
  | ctBit =>
    obtain ⟨hi, hj⟩ := hok
    simp only [encrypt] at hi
    simp only [decrypt, decryptCounted, tamper, encrypt]
    rw [if_neg (by decide), if_neg]
    intro h
    have h2 := (mkTag_inj hnv hnv hctv (flipBit_valid _ i j hctv hj) h).2.2
    exact flipBit_ne _ i j hi h2.symm
  | nonceBit =>
    obtain ⟨hi, hj⟩ := hok
    simp only [encrypt] at hi
    simp only [decrypt, decryptCounted, tamper, encrypt]
    rw [if_neg (by decide), if_neg]
    intro h
    have h2 := (mkTag_inj hnv (flipBit_valid _ i j hnv hj) hctv
      (sealFrom_valid _ _ _ _) h).2.1
    exact flipBit_ne _ i j hi h2.symm
  | saltBit =>
    obtain ⟨hi, hj⟩ := hok
    simp only [encrypt] at hi
    simp only [decrypt, decryptCounted, tamper, encrypt]
    rw [if_neg (by decide), if_neg]
    intro h
    have hk := (Nat.pair_eq_pair.mp h).1
    have h2 := derive_salt_inj (flipBit_valid _ i j hsv hj) hsv hk.symm
    exact flipBit_ne _ i j hi h2

/-! ## The spec's claims -/

/-- C1: for every plaintext byte sequence P and every password W, decrypting
the envelope produced by `encrypt(P, W)` with the same password W returns
exactly P, whatever salt and nonce the randomness source supplied. -/
theorem roundtrip_decrypt_encrypt (pt pw : Bytes) (r : Entropy)
    (hpt : ValidBytes pt) :
    decrypt (encrypt pt pw r) pw = .ok pt :=
  decrypt_encrypt_eq pt pw r hpt

theorem roundtrip_decrypt_encrypt_witness :
    ValidBytes samplePt ∧
    decrypt (encrypt samplePt samplePw sampleEnt) samplePw = .ok samplePt :=
  ⟨by decide, roundtrip_decrypt_encrypt samplePt samplePw sampleEnt (by decide)⟩

/-- C2: flipping any single bit in the ciphertext, tag, nonce or salt field
of a produced envelope makes `decrypt` with the correct password fail with
`AuthenticationFailed`; the error return carries no plaintext bytes. -/
theorem single_bit_tamper_rejected (pt pw : Bytes) (r : Entropy)
    (t : TamperTarget) (i j : Nat) (hr : ValidEntropy r)
    (hok : TamperOK (encrypt pt pw r) t i j) :
    decrypt (tamper (encrypt pt pw r) t i j) pw = .error .AuthenticationFailed :=
  tamper_rejected_aux pt pw r t i j hr hok

theorem single_bit_tamper_rejected_witness :
    ValidEntropy sampleEnt ∧
    TamperOK (encrypt samplePt samplePw sampleEnt) .tagBit 0 0 ∧
    decrypt (tamper (encrypt samplePt samplePw sampleEnt) .tagBit 0 0) samplePw
      = .error .AuthenticationFailed :=
  ⟨by decide, trivial,
    single_bit_tamper_rejected samplePt samplePw sampleEnt .tagBit 0 0
      (by decide) trivial⟩

/-- C3: decrypting `encrypt(P, W1)` with a different password W2 fails with
`AuthenticationFailed` and returns no plaintext (in the idealised model the
failure is certain rather than overwhelmingly probable). -/
theorem wrong_password_rejected (pt p1 p2 : Bytes) (r : Entropy)
    (h1 : ValidBytes p1) (h2 : ValidBytes p2) (hne : p1 ≠ p2) :
    decrypt (encrypt pt p1 r) p2 = .error .AuthenticationFailed :=
  decrypt_wrong_pw pt p1 p2 r h1 h2 hne

theorem wrong_password_rejected_witness :
    ValidBytes samplePw ∧ ValidBytes otherPw ∧ samplePw ≠ otherPw ∧
    decrypt (encrypt samplePt samplePw sampleEnt) otherPw
      = .error .AuthenticationFailed :=
  ⟨by decide, by decide, by decide,
    wrong_password_rejected samplePt samplePw otherPw sampleEnt
      (by decide) (by decide) (by decide)⟩

/-- C4: two independent encryptions of the same (P, W), drawing distinct
fresh salts and nonces from the CSPRNG (the freshness idealisation), yield
envelopes that differ in their salt field, differ in their nonce field, and
differ as envelopes — so no salt is reused — while both still decrypt back
to P under W. -/
theorem fresh_encryptions_distinct (pt pw : Bytes) (r1 r2 : Entropy)
    (hpt : ValidBytes pt) (hs : r1.salt ≠ r2.salt) (hn : r1.nonce ≠ r2.nonce) :
    (encrypt pt pw r1).salt ≠ (encrypt pt pw r2).salt ∧
    (encrypt pt pw r1).nonce ≠ (encrypt pt pw r2).nonce ∧
    encrypt pt pw r1 ≠ encrypt pt pw r2 ∧
    decrypt (encrypt pt pw r1) pw = .ok pt ∧
    decrypt (encrypt pt pw r2) pw = .ok pt := by
  refine ⟨by simpa [encrypt] using hs, by simpa [encrypt] using hn, ?_,
    decrypt_encrypt_eq pt pw r1 hpt, decrypt_encrypt_eq pt pw r2 hpt⟩
  intro h
  have h2 := congrArg Envelope.salt h
  simp only [encrypt] at h2
  exact hs h2

theorem fresh_encryptions_distinct_witness :
    ValidBytes samplePt ∧ sampleEnt.salt ≠ sampleEnt2.salt ∧
    sampleEnt.nonce ≠ sampleEnt2.nonce ∧
    ((encrypt samplePt samplePw sampleEnt).salt
        ≠ (encrypt samplePt samplePw sampleEnt2).salt ∧
      (encrypt samplePt samplePw sampleEnt).nonce
        ≠ (encrypt samplePt samplePw sampleEnt2).nonce ∧
      encrypt samplePt samplePw sampleEnt ≠ encrypt samplePt samplePw sampleEnt2 ∧
      decrypt (encrypt samplePt samplePw sampleEnt) samplePw = .ok samplePt ∧
      decrypt (encrypt samplePt samplePw sampleEnt2) samplePw = .ok samplePt) :=
  ⟨by decide, by decide, by decide,
    fresh_encryptions_distinct samplePt samplePw sampleEnt sampleEnt2
      (by decide) (by decide) (by decide)⟩

/-- C5: an envelope whose version field is not the understood value 1 makes
decryption fail with `UnsupportedVersion`, with the Key Derivation Unit
invoked zero times — decoding is purely structural and never reaches the
cryptography. -/
theorem unsupported_version_rejected_before_kdf (e : Envelope) (pw : Bytes)
    (h : e.version ≠ 1) :
    decryptCounted e pw = (.error .UnsupportedVersion, 0) := by
  simp [decryptCounted, h]

theorem unsupported_version_rejected_before_kdf_witness :
    badEnv.version ≠ 1 ∧
    decryptCounted badEnv samplePw = (.error .UnsupportedVersion, 0) :=
  ⟨by decide, unsupported_version_rejected_before_kdf badEnv samplePw (by decide)⟩

/-- C6: encrypting the UTF-8 bytes of "hello vault" with password
"correct horse battery staple" yields an envelope with version 1 and KDF
parameters memory_kib 262144, iterations 4, parallelism 8; decrypting it
with the same password returns exactly those bytes, and decrypting it with
password "wrong" fails with `AuthenticationFailed`. -/
theorem concrete_scenario_hello_vault (r : Entropy) (_hr : ValidEntropy r) :
    (encrypt helloVault goodPw r).version = 1 ∧
    (encrypt helloVault goodPw r).params.memory_kib = 262144 ∧
    (encrypt helloVault goodPw r).params.iterations = 4 ∧
    (encrypt helloVault goodPw r).params.parallelism = 8 ∧
    decrypt (encrypt helloVault goodPw r) goodPw = .ok helloVault ∧
    decrypt (encrypt helloVault goodPw r) wrongPw = .error .AuthenticationFailed :=
  ⟨rfl, rfl, rfl, rfl,
    decrypt_encrypt_eq _ _ _ (utf8Bytes_valid _),
    decrypt_wrong_pw _ _ _ r (utf8Bytes_valid _) (utf8Bytes_valid _) (by decide)⟩

theorem concrete_scenario_hello_vault_witness :
    ValidEntropy sampleEnt ∧
    decrypt (encrypt helloVault goodPw sampleEnt) goodPw = .ok helloVault :=
  ⟨by decide, (concrete_scenario_hello_vault sampleEnt (by decide)).2.2.2.2.1⟩

/-- C7: on every exit path of `encrypt` and `decrypt` — success, entropy
failure, derivation failure, unsupported version, or authentication failure —
the password buffer and the derived-key buffer are released and zeroized;
no path leaves key material in an un-zeroized buffer. -/
theorem sensitive_buffers_zeroized_all_paths (pt pw : Bytes) (ent : Option Entropy)
    (k1 : Bool) (e : Envelope) (pw2 : Bytes) (k2 : Bool) :
    Zeroized (encryptSB pt pw ent k1).2.1 ∧ Zeroized (encryptSB pt pw ent k1).2.2 ∧
    Zeroized (decryptSB e pw2 k2).2.1 ∧ Zeroized (decryptSB e pw2 k2).2.2 := by
  unfold encryptSB decryptSB
  refine ⟨?_, ?_, ?_, ?_⟩ <;> cases ent <;> cases k1 <;> cases k2 <;>
    first
      | exact zeroized_release _
      | (split <;>
          first
            | exact zeroized_release _
            | (simp only [apply_ite Prod.fst, apply_ite Prod.snd, ite_self]
               exact zeroized_release _))

/-- C8: a click with an empty password field or an empty data field sets the
error message in the output element and returns with the wrapper invoked
zero times, so the engine is never called with empty input from this
binding. -/
theorem empty_fields_block_wrappers (we : Bytes → String → Except String String)
    (wd : String → String → Except String Bytes) (dec : Bytes → String)
    (st : PageState) (h : st.passwordValue = "" ∨ st.dataValue = "") :
    (encryptClick we st).2 = 0 ∧
    (encryptClick we st).1.outputText = "Please provide a password and data to encrypt." ∧
    (encryptClick we st).1.outputClass = "error" ∧
    (decryptClick wd dec st).2 = 0 ∧
    (decryptClick wd dec st).1.outputText
      = "Please provide a password and the encrypted JSON payload." ∧
    (decryptClick wd dec st).1.outputClass = "error" := by
  unfold encryptClick decryptClick
  rw [if_pos h, if_pos h]
  exact ⟨rfl, rfl, rfl, rfl, rfl, rfl⟩

theorem empty_fields_block_wrappers_witness :
    (stEmpty.passwordValue = "" ∨ stEmpty.dataValue = "") ∧
    (encryptClick okEncW stEmpty).2 = 0 ∧
    (decryptClick okDecW constDec stEmpty).2 = 0 :=
  ⟨Or.inl rfl,
    (empty_fields_block_wrappers okEncW okDecW constDec stEmpty (Or.inl rfl)).1,
    (empty_fields_block_wrappers okEncW okDecW constDec stEmpty (Or.inl rfl)).2.2.2.1⟩

/-- C9: when a wrapper throws, the corresponding handler catches the
exception and renders it with the prefix "Encryption failed: " or
"Decryption failed: " and class "error"; the handlers are total functions
on the page state, so no exception propagates to the host. -/
theorem wrapper_errors_rendered_not_propagated
    (we : Bytes → String → Except String String)
    (wd : String → String → Except String Bytes) (dec : Bytes → String)
    (st : PageState) (e1 e2 : String)
    (hp : st.passwordValue ≠ "") (hd : st.dataValue ≠ "")
    (h1 : we (utf8Bytes st.dataValue) st.passwordValue = .error e1)
    (h2 : wd st.dataValue st.passwordValue = .error e2) :
    (encryptClick we st).1.outputText = "Encryption failed: " ++ e1 ∧
    (encryptClick we st).1.outputClass = "error" ∧
    (decryptClick wd dec st).1.outputText = "Decryption failed: " ++ e2 ∧
    (decryptClick wd dec st).1.outputClass = "error" := by
  unfold encryptClick decryptClick
  rw [if_neg (not_or.mpr ⟨hp, hd⟩), if_neg (not_or.mpr ⟨hp, hd⟩), h1, h2]
  exact ⟨rfl, rfl, rfl, rfl⟩

theorem wrapper_errors_rendered_not_propagated_witness :
    stFull.passwordValue ≠ "" ∧ stFull.dataValue ≠ "" ∧
    errEncW (utf8Bytes stFull.dataValue) stFull.passwordValue = .error boomStr ∧
    errDecW stFull.dataValue stFull.passwordValue = .error boomStr ∧
    (encryptClick errEncW stFull).1.outputText = "Encryption failed: " ++ boomStr ∧
    (decryptClick errDecW constDec stFull).1.outputText
      = "Decryption failed: " ++ boomStr :=
  ⟨by decide, by decide, rfl, rfl,
    (wrapper_errors_rendered_not_propagated errEncW errDecW constDec stFull
      boomStr boomStr (by decide) (by decide) rfl rfl).1,
    (wrapper_errors_rendered_not_propagated errEncW errDecW constDec stFull
      boomStr boomStr (by decide) (by decide) rfl rfl).2.2.1⟩

/-- C10: on every execution path, each click handler leaves the password
input field and the data input field unchanged, writing only the output
element's text and class. -/
theorem handlers_preserve_input_fields
    (we : Bytes → String → Except String String)
    (wd : String → String → Except String Bytes) (dec : Bytes → String)
    (st : PageState) :
    (encryptClick we st).1.passwordValue = st.passwordValue ∧
    (encryptClick we st).1.dataValue = st.dataValue ∧
    (decryptClick wd dec st).1.passwordValue = st.passwordValue ∧
    (decryptClick wd dec st).1.dataValue = st.dataValue := by
  unfold encryptClick decryptClick
  refine ⟨?_, ?_, ?_, ?_⟩ <;> split <;> first | rfl | (split <;> rfl)

end Vault
